import Mathlib

/-!
A shallow embedding of the scheduling and execution-control core of the
Distributed-Job-Scheduler repository, together with theorems settling the
frozen claims about it.

Conventions of the embedding:
* Wall-clock instants are integer epoch milliseconds (`Int`).
* The source stores the PCB field `executionTimeDoneSecs` in seconds; every
  value it ever writes there has the shape `k / 1000` with `k` an integer
  number of milliseconds, so the embedding stores the numerator `k` in the
  field `executionTimeDoneMs` and states all claims at that scale
  (`executionTimeDoneSecs = executionTimeSecs` iff
  `executionTimeDoneMs = executionTimeSecs * 1000`).
* JavaScript fields that may be `undefined` are `Option`-valued; `jsOr`
  models the JavaScript `x || d` idiom on numbers (both `undefined` and `0`
  are falsy).
* The preemption oracle consulted between execution slices is abstracted as
  a boolean stream `Nat → Bool` (slice index ↦ answer); its concrete
  implementation `checkPreemption` is embedded separately and verified on
  its own.
* The Redis keys `jobQueue:1` … `jobQueue:10` are a function
  `Lanes : Nat → List Nat` from priority to the list of queued job ids,
  head of the list = head of the Redis list (`lPush` prepends, `rPop` takes
  the last element).  Lane index 0 stands for a malformed key (such as
  `jobQueue:undefined`) that no consumer ever pops; consumers scan only
  lanes 10 down to 1.  The distinct key `jobQueue` (no priority suffix)
  written by the shutdown handler is modelled as a separate list.
-/

namespace Sched

/-- Job statuses, from the `Job` mongoose schema. -/
inductive JStatus
  | PENDING | READY | RUNNING | SUSPENDED | SUCCESS | FAILED
  deriving DecidableEq

/-- PCB (execution-state) statuses, from the `PCB` mongoose schema. -/
inductive PStatus
  | RUNNING | SUSPENDED | READY | COMPLETED
  deriving DecidableEq

/-- Job types dispatched by `executeJob`; `UNKNOWN` covers any other tag. -/
inductive JType
  | DELAY | EMAIL | WEBHOOK | UNKNOWN (tag : String)
  deriving DecidableEq

/-- The `Job` record (mongoose schema in the repo).  Payload fields used by
the embedded code (`payload.to`, `payload.url`, `payload.delayMs`) are
inlined as optional fields; an absent field is `none`. -/
structure JobM where
  id : Nat
  type : JType
  payloadTo : Option String
  payloadUrl : Option String
  payloadDelayMs : Option Nat
  status : JStatus
  retryCount : Option Nat
  maxRetries : Nat
  executionTimeSecs : Nat
  delayMs : Nat
  priority : Option Nat
  createdAt : Int
  deriving DecidableEq

/-- The `PCB` record (mongoose schema in the repo).  `executionTimeDoneMs`
holds the millisecond numerator of the source's `executionTimeDoneSecs`
(see the header); `none` is `undefined`. -/
structure PCBM where
  jobId : Nat
  status : PStatus
  startTime : Option Int
  elapsedTime : Option Nat
  expectedDurationMs : Option Nat
  deadlineTime : Option Int
  executionTimeSecs : Option Nat
  executionTimeDoneMs : Option Nat
  delayTotalMs : Option Nat
  delaySoFarMs : Option Nat
  suspendedAt : Option Int
  resumeCount : Nat
  deriving DecidableEq

/-- JavaScript `x || d` on an optional number: `undefined` and `0` are
falsy and give the default. -/
def jsOr (x : Option Nat) (d : Nat) : Nat :=
  match x with
  | none => d
  | some 0 => d
  | some k => k

/-! ## Atomic priority queue (Redis lanes) -/

/-- The ten priority lanes `jobQueue:p`, by priority number. -/
abbrev Lanes := Nat → List Nat

/-- `lPush` on one lane: prepend the id at the head of the Redis list. -/
def lPushL (id : Nat) (l : List Nat) : List Nat := id :: l

/-- `lPush` on the lane map. -/
def lPush (lanes : Lanes) (p : Nat) (id : Nat) : Lanes :=
  fun q => if q = p then lPushL id (lanes q) else lanes q

/-- `rPop` on one lane: remove and return the last element (the oldest
pushed one, since `lPush` prepends). -/
def rPopL (l : List Nat) : Option Nat × List Nat := (l.getLast?, l.dropLast)

/-- The scan `for (let priority = n; priority >= 1; priority--) rPop(...)`
from `processJobs` (worker.js): pop from the highest-numbered non-empty
lane at or below `n`. -/
def popScan : Nat → Lanes → Option (Nat × Nat) × Lanes
  | 0, lanes => (none, lanes)
  | n + 1, lanes =>
    match (rPopL (lanes (n + 1))).1 with
    | some id =>
        (some (n + 1, id), fun q => if q = n + 1 then (lanes q).dropLast else lanes q)
    | none => popScan n lanes

/-- `popHighest` of the spec: the dispatch scan over lanes 10 down to 1. -/
def popHighest (lanes : Lanes) : Option (Nat × Nat) × Lanes := popScan 10 lanes

/-- Repeatedly `rPop` a single lane until it is empty, collecting the ids
in pop order (fuelled by the length of the list). -/
def drainAux : Nat → List Nat → List Nat
  | 0, _ => []
  | n + 1, l =>
    match rPopL l with
    | (none, _) => []
    | (some x, l') => x :: drainAux n l'

/-- Pop a whole lane in order. -/
def drain (l : List Nat) : List Nat := drainAux l.length l

/-- Push a list of ids into one empty lane in order (first element of `xs`
pushed first), as the producers do with `lPush`. -/
def pushAll (xs : List Nat) : List Nat := xs.foldl (fun l x => lPushL x l) []

/-! ## Priority aging (PriorityAging service) -/

/-- `getJobAge`: `Math.floor((now - job.createdAt.getTime()) / 1000)`;
`Int.fdiv` is floor division, matching `Math.floor` on a real quotient. -/
def getJobAge (job : JobM) (now : Int) : Int :=
  Int.fdiv (now - job.createdAt) 1000

/-- `getEffectivePriority`: `Math.min((job.priority || 5) + age, 10)`. -/
def getEffectivePriority (job : JobM) (now : Int) : Int :=
  min ((jsOr job.priority 5 : Int) + getJobAge job now) 10

/-! ## Preemption oracle (PCBManager.checkPreemption) -/

/-- The probe loop of `checkPreemption`: scan lanes `n` down to 1 with
`lLen` and stop at the first non-empty one; 0 when all are empty. -/
def probeHighest : Nat → Lanes → Nat
  | 0, _ => 0
  | n + 1, lanes => if lanes (n + 1) = [] then probeHighest n lanes else n + 1

/-- `highestWaitingPriority` of `checkPreemption`: probe lanes 10 down to 1. -/
def highestWaitingPriority (lanes : Lanes) : Nat := probeHighest 10 lanes

/-- `PCBManager.checkPreemption(currentJob)`: preempt iff the highest
waiting lane priority strictly exceeds the current job's effective
priority.  (The call sites pass an extra second argument, which the method
ignores.) -/
def checkPreemption (lanes : Lanes) (job : JobM) (now : Int) : Bool :=
  (getEffectivePriority job now) < (highestWaitingPriority lanes : Int)

/-! ## Execution Controller (execution.executor.js, `executionOnlyExecutor`) -/

/-- How a run of `executionOnlyExecutor` ends.  `preemptReturn` is the
suspension path: the source persists the checkpoint, marks the PCB and the
job SUSPENDED, and then RETURNS NORMALLY (it does not throw); the
constructor name records that distinction.  `fuelOut` only signals that the
model's fuel was insufficient, never a behaviour of the source. -/
inductive ExecOutcome
  | completed (pcb : PCBM)
  | preemptReturn (pcb : PCBM) (job : JobM)
  | fuelOut
  deriving DecidableEq

/-- The work loop of `executionOnlyExecutor`: sleep a chunk of at most
100 ms, advance `executedSoFar`, then consult the preemption oracle; on
yield, persist the checkpoint, suspend PCB and job, and return; when the
remaining work is exhausted, mark the PCB COMPLETED and (in the source)
assign `executionTimeDoneSecs = job.executionTimeSecs`. -/
def execWorkLoop (oracle : Nat → Bool) (job : JobM) (now : Int)
    (alreadyMs remainingMs : Nat) (pcb : PCBM) :
    Nat → Nat → Nat → ExecOutcome
  | 0, _, executedSoFar =>
    if executedSoFar < remainingMs then .fuelOut
    else .completed { pcb with
      status := .COMPLETED
      executionTimeDoneMs := some (job.executionTimeSecs * 1000) }
  | fuel + 1, i, executedSoFar =>
    if executedSoFar < remainingMs then
      let chunk := min 100 (remainingMs - executedSoFar)
      let executed := executedSoFar + chunk
      if oracle i then
        .preemptReturn
          { pcb with
            status := .SUSPENDED
            executionTimeDoneMs := some (alreadyMs + executed)
            suspendedAt := some now }
          { job with status := .SUSPENDED }
      else
        execWorkLoop oracle job now alreadyMs remainingMs pcb fuel (i + 1) executed
    else
      .completed { pcb with
        status := .COMPLETED
        executionTimeDoneMs := some (job.executionTimeSecs * 1000) }

/-- `executionOnlyExecutor(job, pcbManager)`: load or create the PCB (on a
SUSPENDED PCB, mark it RUNNING and increment `resumeCount`), compute the
remaining work from the stored checkpoint, and run the work loop.  Every
PCB the source reaches this point with carries a defined
`executionTimeDoneSecs` (creation writes 0), hence the `getD 0` read. -/
def executionOnlyExecutor (oracle : Nat → Bool) (fuel : Nat)
    (pcb? : Option PCBM) (job : JobM) (now : Int) : ExecOutcome :=
  let pcb : PCBM :=
    match pcb? with
    | none =>
      { jobId := job.id
        status := .RUNNING
        startTime := some now
        elapsedTime := some 0
        expectedDurationMs := some (job.executionTimeSecs * 1000)
        deadlineTime := some (now + (job.executionTimeSecs * 1000 : Nat))
        executionTimeSecs := some job.executionTimeSecs
        executionTimeDoneMs := some 0
        delayTotalMs := none
        delaySoFarMs := none
        suspendedAt := none
        resumeCount := 0 }
    | some p =>
      if p.status = .SUSPENDED then
        { p with status := .RUNNING, resumeCount := p.resumeCount + 1 }
      else p
  let totalMs := job.executionTimeSecs * 1000
  let alreadyMs := pcb.executionTimeDoneMs.getD 0
  let remainingMs := totalMs - alreadyMs
  execWorkLoop oracle job now alreadyMs remainingMs pcb fuel 0 0

/-! ## Type-specific payload handlers (email.executor.js, webhook.executor.js) -/

/-- `emailExecutor(job)`: `if (!to) throw new Error("Missing email
recipient")` — an absent or empty recipient is falsy. -/
def emailExecutor (job : JobM) : Except String Unit :=
  match job.payloadTo with
  | none => .error "Missing email recipient"
  | some s => if s = "" then .error "Missing email recipient" else .ok ()

/-- `webhookExecutor(job)`: `if (!url) throw new Error("Missing webhook
URL")`. -/
def webhookExecutor (job : JobM) : Except String Unit :=
  match job.payloadUrl with
  | none => .error "Missing webhook URL"
  | some s => if s = "" then .error "Missing webhook URL" else .ok ()

/-- `executeJob(job, pcbManager)` (jobExecutor.js): every known type —
DELAY, EMAIL and WEBHOOK alike — is routed to `executionOnlyExecutor`; the
imported `emailExecutor` and `webhookExecutor` are never invoked. -/
def executeJob (oracle : Nat → Bool) (fuel : Nat) (pcb? : Option PCBM)
    (job : JobM) (now : Int) : Except String ExecOutcome :=
  match job.type with
  | .DELAY => .ok (executionOnlyExecutor oracle fuel pcb? job now)
  | .EMAIL => .ok (executionOnlyExecutor oracle fuel pcb? job now)
  | .WEBHOOK => .ok (executionOnlyExecutor oracle fuel pcb? job now)
  | .UNKNOWN tag => .error ("Unknown job type: " ++ tag)

/-! ## Dispatch loop outcome handling (worker.js, `processJobs`) -/

/-- One entry of the durable delayed set `delayedQueue`
(`zAdd` score = ready epoch ms, value = job id). -/
structure DelayedEntry where
  score : Int
  value : Nat
  deriving DecidableEq

/-- The catch branch of `processJobs` for a non-PREEMPTED error
(worker.js lines 117-138): `retryCount = (retryCount ?? 0) + 1`; within
budget, schedule a durable delayed retry `2 ^ retryCount` seconds out and
set PENDING; otherwise set FAILED with no delayed-set entry. -/
def dispatchFailure (job : JobM) (nowMs : Int) : JobM × Option DelayedEntry :=
  let rc := job.retryCount.getD 0 + 1
  if rc ≤ job.maxRetries then
    ({ job with retryCount := some rc, status := .PENDING },
      some ⟨nowMs + (2 ^ rc * 1000 : Nat), job.id⟩)
  else
    ({ job with retryCount := some rc, status := .FAILED }, none)

/-- Steps 4-5 and the catch branch of a `processJobs` iteration
(worker.js lines 91-139), given the result of
`withTimeout(executeJob(job, pcbManager), ...)`.  A normal return — which
includes the executor's preemption `return` — falls through to
`job.status = "SUCCESS"`.  A thrown "PREEMPTED" is left alone; any other
error goes through retry accounting.  The executor mutates the same job
object the worker holds, so on `preemptReturn` the worker's final write
applies to the job as the executor left it. -/
def dispatchOutcome (job : JobM) (result : Except String ExecOutcome)
    (nowMs : Int) : JobM × Option DelayedEntry :=
  match result with
  | .ok outcome =>
    let job' :=
      match outcome with
      | .preemptReturn _ j => j
      | _ => job
    ({ job' with status := .SUCCESS }, none)
  | .error msg =>
    if msg = "PREEMPTED" then (job, none)
    else dispatchFailure job nowMs

/-! ## Resumption scanner (worker.js, `processSuspendedJobs`) -/

/-- The body of `processSuspendedJobs` for one SUSPENDED PCB: boost the
job's priority to its effective priority when the latter is strictly
higher (a JavaScript `>` against an `undefined` priority is false), re-push
the job id onto the lane of its (possibly boosted) priority, and reset the
PCB status to READY.  `resumeCount` is not touched here. -/
def processSuspendedJobsStep (lanes : Lanes) (pcb : PCBM) (job : JobM)
    (now : Int) : Lanes × PCBM × JobM :=
  let eff := getEffectivePriority job now
  let job' :=
    match job.priority with
    | some p => if (p : Int) < eff then { job with priority := some eff.toNat } else job
    | none => job
  let lanes' := lPush lanes (job'.priority.getD 0) job'.id
  (lanes', { pcb with status := .READY }, job')

/-! ## Graceful shutdown (worker.js, `shutdown`) -/

/-- The active-job branch of `shutdown`: set the job back to PENDING and
push its id — onto the bare key `jobQueue` (no priority suffix), which is
modelled as the separate `bare` list because no consumer in the repository
ever pops that key; the priority lanes are left untouched. -/
def shutdownStep (activeJob : JobM) (lanes : Lanes) (bare : List Nat) :
    JobM × Lanes × List Nat :=
  ({ activeJob with status := .PENDING }, lanes, lPushL activeJob.id bare)

/-! ## Recovery Coordinator (RecoveryService.js, `recoverJobs`) -/

/-- The durable stores the Recovery Coordinator scans. -/
structure Store where
  jobs : List JobM
  pcbs : List PCBM

/-- Scan 3 of `RecoveryService.recoverJobs()`, over the PCB list in store
order: for each SUSPENDED PCB (the `PCB.find` filter), reset it to READY
and save, then read the `populate`d job's priority to build the lane key
and push the job's id.  On a dangling `pcb.jobId` that read throws in the
source (`job` is null), and the single outer catch of `recoverJobs`
aborts everything that follows: the PCB just reset stays READY, the
remaining SUSPENDED PCBs are left untouched, and no further pushes
happen.  Returns the updated PCB list and the `(priority, id)` pushes. -/
def recoverScan3 (jobs : List JobM) :
    List PCBM → List PCBM × List (Nat × Nat)
  | [] => ([], [])
  | pcb :: rest =>
    if pcb.status = .SUSPENDED then
      let pcb' := { pcb with status := .READY }
      match jobs.find? (fun j => j.id = pcb.jobId) with
      | some j =>
        let (rest', pushes) := recoverScan3 jobs rest
        (pcb' :: rest', (j.priority.getD 0, pcb.jobId) :: pushes)
      | none => (pcb' :: rest, [])
    else
      let (rest', pushes) := recoverScan3 jobs rest
      (pcb :: rest', pushes)

/-- `RecoveryService.recoverJobs()`: scan 1 re-pushes every PENDING job
(status untouched); scan 2 resets every RUNNING job to PENDING and
re-pushes it; scan 3 is `recoverScan3` over the updated job list, with
its abort-on-dangling-reference behaviour.  Scans 1 and 2 perform no
record join, so only scan 3 can throw; each scan queries statuses the
earlier scans did not produce, so computing scans 1 and 2 from the
initial store matches the source's sequential order.  Returns the updated
store and the `(priority, id)` pushes in order. -/
def recoverJobs (s : Store) : Store × List (Nat × Nat) :=
  let pushed1 := (s.jobs.filter (fun j => j.status = .PENDING)).map
      (fun j => (j.priority.getD 0, j.id))
  let pushed2 := (s.jobs.filter (fun j => j.status = .RUNNING)).map
      (fun j => (j.priority.getD 0, j.id))
  let jobs' := s.jobs.map (fun j =>
      if j.status = .RUNNING then { j with status := .PENDING } else j)
  let (pcbs', pushed3) := recoverScan3 jobs' s.pcbs
  (⟨jobs', pcbs'⟩, pushed1 ++ pushed2 ++ pushed3)

/-! ## The source of the C4 counterexample
(part_000, `delayExecutorWithContextSwitch`) -/

/-- How a run of `delayExecutorWithContextSwitch` ends; unlike
`executionOnlyExecutor`, its suspension path throws `Error("PREEMPTED")`
(without touching the job record), hence `thrownPreempted`. -/
inductive DelayExecOutcome
  | completed (pcb : PCBM)
  | thrownPreempted (pcb : PCBM)
  | fuelOut
  deriving DecidableEq

/-- Intermediate result of one of the two fuelled loops of
`delayExecutorWithContextSwitch`. -/
inductive LoopRes
  | suspended (pcb : PCBM)
  | finished (pcb : PCBM)
  | fuelOut
  deriving DecidableEq

/-- The delay-phase loop of `delayExecutorWithContextSwitch`: consult the
oracle BEFORE sleeping; on yield, persist `delayProgress` and suspend
(the caller then throws); otherwise sleep at most 100 ms and persist
`elapsedTime` every 500 ms of progress. -/
def p000DelayLoop (oracle : Nat → Bool) (now : Int)
    (alreadyDelayed remainingDelay : Nat) :
    Nat → Nat → Nat → PCBM → LoopRes
  | 0, _, delayedSoFar, pcb =>
    if delayedSoFar < remainingDelay then .fuelOut else .finished pcb
  | fuel + 1, i, delayedSoFar, pcb =>
    if delayedSoFar < remainingDelay then
      if oracle i then
        .suspended { pcb with
          status := .SUSPENDED
          delaySoFarMs := some (alreadyDelayed + delayedSoFar)
          suspendedAt := some now }
      else
        let sleepTime := min 100 (remainingDelay - delayedSoFar)
        let delayed := delayedSoFar + sleepTime
        let pcb' :=
          if delayed % 500 = 0 then
            { pcb with elapsedTime := some (alreadyDelayed + delayed) }
          else pcb
        p000DelayLoop oracle now alreadyDelayed remainingDelay fuel (i + 1) delayed pcb'
    else .finished pcb

/-- The execution-phase loop of `delayExecutorWithContextSwitch`: consult
the oracle BEFORE sleeping; on yield, persist the checkpoint and suspend
(the caller then throws); otherwise sleep at most 100 ms and persist the
checkpoint every 500 ms of progress. -/
def p000ExecLoop (oracle : Nat → Bool) (now : Int)
    (doneMs0 remainingMs : Nat) :
    Nat → Nat → Nat → PCBM → LoopRes
  | 0, _, soFar, pcb =>
    if soFar < remainingMs then .fuelOut else .finished pcb
  | fuel + 1, i, soFar, pcb =>
    if soFar < remainingMs then
      if oracle i then
        .suspended { pcb with
          status := .SUSPENDED
          executionTimeDoneMs := some (doneMs0 + soFar)
          suspendedAt := some now }
      else
        let chunk := min 100 (remainingMs - soFar)
        let soFar' := soFar + chunk
        let pcb' :=
          if soFar' % 500 = 0 then
            { pcb with executionTimeDoneMs := some (doneMs0 + soFar') }
          else pcb
        p000ExecLoop oracle now doneMs0 remainingMs fuel (i + 1) soFar' pcb'
    else .finished pcb

/-- `delayExecutorWithContextSwitch(job, pcbManager)` (part_000): create or
resume the PCB, run the interruptible delay phase, mark it COMPLETED, then
run the execution phase.  On completion of the execution phase the source
executes `pcb.executionTimeDoneSecs = pcb.executionTimeNeededSecs`; the PCB
schema (and every write in the repository) has no field
`executionTimeNeededSecs`, so the read yields `undefined` — modelled as
assigning `none`.  The modelled runs always supply `job.payload.delayMs`
(an absent one would poison the arithmetic with `NaN` in the source). -/
def delayExecutorWithContextSwitch (oracleD oracleE : Nat → Bool)
    (fuel : Nat) (pcb? : Option PCBM) (job : JobM) (now : Int) :
    DelayExecOutcome :=
  let pcb : PCBM :=
    match pcb? with
    | none =>
      { jobId := job.id
        status := .RUNNING
        startTime := some now
        elapsedTime := some 0
        expectedDurationMs := some (job.payloadDelayMs.getD 0)
        deadlineTime := some (now + (job.payloadDelayMs.getD 0 : Nat))
        executionTimeSecs := some job.executionTimeSecs
        executionTimeDoneMs := some 0
        delayTotalMs := some (job.payloadDelayMs.getD 0)
        delaySoFarMs := some 0
        suspendedAt := none
        resumeCount := 0 }
    | some p =>
      if p.status = .SUSPENDED then
        { p with status := .RUNNING, resumeCount := p.resumeCount + 1 }
      else p
  let totalDelay := pcb.delayTotalMs.getD 0
  let alreadyDelayed := pcb.delaySoFarMs.getD 0
  let remainingDelay := totalDelay - alreadyDelayed
  match p000DelayLoop oracleD now alreadyDelayed remainingDelay fuel 0 0 pcb with
  | .suspended pcb' => .thrownPreempted pcb'
  | .fuelOut => .fuelOut
  | .finished pcb1 =>
    let pcb2 := { pcb1 with status := .COMPLETED, elapsedTime := some totalDelay }
    let neededMs := jsOr pcb2.executionTimeSecs 10 * 1000
    let doneMs0 := pcb2.executionTimeDoneMs.getD 0
    let remainingMs := neededMs - doneMs0
    match p000ExecLoop oracleE now doneMs0 remainingMs fuel 0 0 pcb2 with
    | .suspended pcb' => .thrownPreempted pcb'
    | .fuelOut => .fuelOut
    | .finished pcb3 =>
      .completed { pcb3 with status := .COMPLETED, executionTimeDoneMs := none }

/-! ## Outcome projections used in the theorem statements -/

/-- The PCB carried by an `ExecOutcome`, when any. -/
def outcomePCB : ExecOutcome → Option PCBM
  | .completed pcb => some pcb
  | .preemptReturn pcb _ => some pcb
  | .fuelOut => none

/-- The job carried by a `preemptReturn`. -/
def outcomeJob : ExecOutcome → Option JobM
  | .preemptReturn _ j => some j
  | _ => none

/-- Whether the run completed its work. -/
def isCompleted : ExecOutcome → Bool
  | .completed _ => true
  | _ => false

/-- Whether the run took the suspension (normal-return) path. -/
def isPreemptReturn : ExecOutcome → Bool
  | .preemptReturn _ _ => true
  | _ => false

/-- The PCB carried by a `DelayExecOutcome`, when any. -/
def delayOutcomePCB : DelayExecOutcome → Option PCBM
  | .completed pcb => some pcb
  | .thrownPreempted pcb => some pcb
  | .fuelOut => none

/-- Whether a `delayExecutorWithContextSwitch` run completed. -/
def delayIsCompleted : DelayExecOutcome → Bool
  | .completed _ => true
  | _ => false

/-- The message of a thrown handler error, when any. -/
def errMsg : Except String Unit → Option String
  | .error s => some s
  | .ok _ => none

/-! ## Spec-side predicate for the preemption-oracle claim -/

/-- What the spec calls the highest non-empty waiting lane: non-empty, in
range, and every higher lane up to 10 is empty. -/
def IsHighestNonEmptyLane (lanes : Lanes) (q : Nat) : Prop :=
  1 ≤ q ∧ q ≤ 10 ∧ lanes q ≠ [] ∧ ∀ r, q < r → r ≤ 10 → lanes r = []

/-! ## Concrete fixtures used by the counterexample runs and witnesses -/

/-- A low-priority one-second job, picked up by a worker (status RUNNING). -/
def jobA : JobM :=
  { id := 1, type := .DELAY, payloadTo := none, payloadUrl := none,
    payloadDelayMs := none, status := .RUNNING, retryCount := some 0,
    maxRetries := 3, executionTimeSecs := 1, delayMs := 0,
    priority := some 3, createdAt := 0 }

/-- A `getD` default PCB for extracting outcome components; its marker
`resumeCount` of 99 never shows up in the evaluated runs. -/
def pcb0 : PCBM :=
  { jobId := 0, status := .READY, startTime := none, elapsedTime := none,
    expectedDurationMs := none, deadlineTime := none,
    executionTimeSecs := none, executionTimeDoneMs := none,
    delayTotalMs := none, delaySoFarMs := none, suspendedAt := none,
    resumeCount := 99 }

/-- `jobA` run while a strictly higher-priority job is waiting, so the
preemption oracle answers true at the first 100 ms slice. -/
def runPreemptedA : ExecOutcome :=
  executionOnlyExecutor (fun _ => true) 20 none jobA 0

/-- One pass of the Resumption Scanner over the PCB and job that
`runPreemptedA` left suspended. -/
def scanA : Lanes × PCBM × JobM :=
  processSuspendedJobsStep (fun _ => [])
    ((outcomePCB runPreemptedA).getD pcb0)
    ((outcomeJob runPreemptedA).getD jobA) 0

/-- The suspended job picked up again after the scan (the worker marks it
RUNNING) and run to completion with no further preemption. -/
def runResumedA : ExecOutcome :=
  executionOnlyExecutor (fun _ => false) 30 (some scanA.2.1)
    { (outcomeJob runPreemptedA).getD jobA with status := .RUNNING } 0

/-- A DELAY job with a 100 ms payload delay, for the
`delayExecutorWithContextSwitch` completion run. -/
def jobD : JobM := { jobA with id := 4, payloadDelayMs := some 100 }

/-- `jobD` driven through both phases with no preemption. -/
def runDelayD : DelayExecOutcome :=
  delayExecutorWithContextSwitch (fun _ => false) (fun _ => false) 30 none jobD 0

/-- An EMAIL job whose payload lacks the recipient address. -/
def jobEmailNoTo : JobM := { jobA with id := 8, type := .EMAIL }

/-- A WEBHOOK job whose payload lacks the target URL. -/
def jobWebhookNoUrl : JobM := { jobA with id := 9, type := .WEBHOOK }

/-- A priority-5 job caught RUNNING by the shutdown handler. -/
def jobShut : JobM := { jobA with id := 7, priority := some 5 }

/-- All lanes empty. -/
def lanes0 : Lanes := fun _ => []

/-- The shutdown handler applied to `jobShut` with empty queues. -/
def shutA : JobM × Lanes × List Nat := shutdownStep jobShut lanes0 []

/-- A queue state whose only waiting job (id 7) sits in lane 9. -/
def lanesW : Lanes := fun p => if p = 9 then [7] else []

/-- A job one transient failure away from its retry budget. -/
def jobAtBudget : JobM := { jobA with retryCount := some 3, maxRetries := 3 }

/-- A job with one recorded transient failure. -/
def jobRetrying : JobM := { jobA with retryCount := some 1 }

/-- `jobA` without a stored priority. -/
def jobNoPri : JobM := { jobA with priority := none }

/-- A job suspended mid-run (its PCB below is SUSPENDED too). -/
def jobSusp : JobM := { jobA with status := .SUSPENDED }

/-- A SUSPENDED PCB whose `jobId` 99 matches no job in the store — the
dangling reference left behind when a job document is deleted (the repo
ships a cleanup script that removes jobs) while its PCB survives. -/
def pcbDangling : PCBM :=
  { pcb0 with jobId := 99, status := .SUSPENDED, resumeCount := 0 }

/-- The SUSPENDED PCB owned by `jobSusp`. -/
def pcbSusp : PCBM :=
  { pcb0 with jobId := jobSusp.id, status := .SUSPENDED, resumeCount := 0 }

/-- A store whose SUSPENDED PCB list holds the dangling PCB ahead of a
valid one: recovery's scan 3 aborts on the first and never reaches the
second. -/
def storeDangling : Store := ⟨[jobSusp], [pcbDangling, pcbSusp]⟩

/-!
## Theorems settling the claims
-/

/-- C1: the claim says a preempted job's run ends by signaling preemption
to the caller as a distinguished error and the Dispatch Loop leaves the job
SUSPENDED, never marking it SUCCESS.  On the code this fails: the executor
does persist the checkpoint and mark PCB and job SUSPENDED, but then
returns normally, so `processJobs` falls through to its success step and
marks the job SUCCESS (retry bookkeeping is indeed skipped: `retryCount`
is unchanged and no delayed-set entry is added).  Evaluated on `jobA`
preempted at its first slice. -/
theorem c1_preempted_job_marked_success :
    isPreemptReturn runPreemptedA = true
    ∧ (outcomePCB runPreemptedA).map PCBM.status = some .SUSPENDED
    ∧ (outcomePCB runPreemptedA).map PCBM.executionTimeDoneMs = some (some 100)
    ∧ (outcomeJob runPreemptedA).map JobM.status = some .SUSPENDED
    ∧ (dispatchOutcome jobA (.ok runPreemptedA) 0).1.status = .SUCCESS
    ∧ (dispatchOutcome jobA (.ok runPreemptedA) 0).1.retryCount = jobA.retryCount
    ∧ (dispatchOutcome jobA (.ok runPreemptedA) 0).2 = none := by
  decide

/-- C2: the claim says `resumeCount` increases by exactly 1 per
suspend→resume cycle.  On the code it increases by 0: the Resumption
Scanner resets the PCB to READY before the job is picked up again, and
`executionOnlyExecutor` increments `resumeCount` only when the PCB is
still SUSPENDED, so a full preempt → re-enqueue → resume-to-completion
cycle of `jobA` leaves `resumeCount` at 0. -/
theorem c2_resume_count_not_incremented :
    (outcomePCB runPreemptedA).map PCBM.status = some .SUSPENDED
    ∧ (outcomePCB runPreemptedA).map PCBM.resumeCount = some 0
    ∧ scanA.2.1.status = .READY
    ∧ scanA.1 3 = [jobA.id]
    ∧ isCompleted runResumedA = true
    ∧ (outcomePCB runResumedA).map PCBM.executionTimeDoneMs = some (some 1000)
    ∧ (outcomePCB runResumedA).map PCBM.resumeCount = some 0 := by
  decide

/-- C4: the claim says every checkpoint written by the Execution
Controller keeps `executionTimeDoneSecs` bounded and monotone, and that at
completion it is assigned a defined value equal to `executionTimeSecs`.
The completion step of `delayExecutorWithContextSwitch` (cited by the
claim) instead assigns the nonexistent field `executionTimeNeededSecs`,
i.e. undefined: running `jobD` (100 ms delay, 1 s of work) through both
phases with no preemption completes with
`executionTimeDoneSecs = undefined`, not `executionTimeSecs`. -/
theorem c4_completion_assigns_undefined :
    delayIsCompleted runDelayD = true
    ∧ (delayOutcomePCB runDelayD).map PCBM.status = some .COMPLETED
    ∧ (delayOutcomePCB runDelayD).map PCBM.executionTimeDoneMs = some none
    ∧ (delayOutcomePCB runDelayD).map PCBM.executionTimeDoneMs
        ≠ some (some (jobD.executionTimeSecs * 1000)) := by
  decide

/-- C8: the claim says an EMAIL job without a recipient (and a WEBHOOK job
without a URL) has the type-specific handler invoked after the work loop,
which fails fast rather than the job succeeding.  The handlers would
indeed fail fast, but `executeJob` routes every known type to
`executionOnlyExecutor` and never invokes them, so both jobs run to
completion and the Dispatch Loop marks them SUCCESS. -/
theorem c8_handlers_never_invoked :
    errMsg (emailExecutor jobEmailNoTo) = some "Missing email recipient"
    ∧ errMsg (webhookExecutor jobWebhookNoUrl) = some "Missing webhook URL"
    ∧ (executeJob (fun _ => false) 20 none jobEmailNoTo 0).toOption.map isCompleted
        = some true
    ∧ (dispatchOutcome jobEmailNoTo
        (executeJob (fun _ => false) 20 none jobEmailNoTo 0) 0).1.status = .SUCCESS
    ∧ (executeJob (fun _ => false) 20 none jobWebhookNoUrl 0).toOption.map isCompleted
        = some true
    ∧ (dispatchOutcome jobWebhookNoUrl
        (executeJob (fun _ => false) 20 none jobWebhookNoUrl 0) 0).1.status = .SUCCESS := by
  decide

/-- C9: the claim says the interrupted RUNNING job is re-enqueued onto the
priority lane matching its priority before exit.  The shutdown handler
does set it back to PENDING, but pushes its id onto the bare key
`jobQueue` (no priority suffix): all priority lanes are left untouched and
a dispatch scan still finds nothing to pop. -/
theorem c9_shutdown_pushes_unconsumed_key :
    shutA.1.status = .PENDING
    ∧ shutA.2.2 = [jobShut.id]
    ∧ shutA.2.1 = lanes0
    ∧ (popHighest shutA.2.1).1 = none := by
  refine ⟨rfl, by decide, rfl, by decide⟩

/-- C10: with an undefined (or otherwise falsy) stored priority,
`getEffectivePriority` substitutes the default base priority 5 and returns
`min (5 + ageSeconds) 10`. -/
theorem c10_default_priority (job : JobM) (now : Int)
    (h : job.priority = none ∨ job.priority = some 0) :
    getEffectivePriority job now
      = min (5 + Int.fdiv (now - job.createdAt) 1000) 10 := by
  rcases h with h | h <;>
    simp only [getEffectivePriority, getJobAge, jsOr, h] <;> norm_num

/-- Witness for C10 at `jobNoPri` and `now = 7000`. -/
theorem c10_default_priority_witness :
    jobNoPri.priority = none
    ∧ getEffectivePriority jobNoPri 7000
        = min (5 + Int.fdiv (7000 - jobNoPri.createdAt) 1000) 10 :=
  ⟨rfl, c10_default_priority jobNoPri 7000 (Or.inl rfl)⟩

/-- C3: the catch branch for a non-preemption failure increments
`retryCount`; within budget it schedules a durable delayed entry
`2 ^ retryCount` seconds out and sets the status PENDING; past the budget
it sets FAILED with no entry, and (given the pre-failure invariant
`retryCount ≤ maxRetries`) a terminal FAILED carries
`retryCount = maxRetries + 1`. -/
theorem c3_retry_accounting (job : JobM) (now : Int) :
    (dispatchFailure job now).1.retryCount = some (job.retryCount.getD 0 + 1)
    ∧ (job.retryCount.getD 0 + 1 ≤ job.maxRetries →
        (dispatchFailure job now).1.status = .PENDING
        ∧ (dispatchFailure job now).2 =
            some ⟨now + (2 ^ (job.retryCount.getD 0 + 1) * 1000 : Nat), job.id⟩)
    ∧ (job.maxRetries < job.retryCount.getD 0 + 1 →
        (dispatchFailure job now).1.status = .FAILED
        ∧ (dispatchFailure job now).2 = none)
    ∧ (job.retryCount.getD 0 ≤ job.maxRetries →
        (dispatchFailure job now).1.status = .FAILED →
        (dispatchFailure job now).1.retryCount = some (job.maxRetries + 1)) := by
  by_cases h : job.retryCount.getD 0 + 1 ≤ job.maxRetries
  · simp only [dispatchFailure]
    rw [if_pos h]
    exact ⟨rfl, fun _ => ⟨rfl, rfl⟩, fun h1 => absurd h (by omega),
      fun _ h2 => by simp at h2⟩
  · simp only [dispatchFailure]
    rw [if_neg h]
    exact ⟨rfl, fun h1 => absurd h1 h, fun _ => ⟨rfl, rfl⟩,
      fun h1 _ => by
        have hb : job.retryCount.getD 0 = job.maxRetries := by omega
        rw [hb]⟩

/-- Witness for C3: `jobAtBudget` (retryCount 3 = maxRetries) fails into
terminal FAILED with retryCount 4; `jobRetrying` (retryCount 1) fails into
PENDING with a delayed entry 2^2 seconds out. -/
theorem c3_retry_accounting_witness :
    (jobAtBudget.maxRetries < jobAtBudget.retryCount.getD 0 + 1
      ∧ (dispatchFailure jobAtBudget 0).1.status = .FAILED
      ∧ (dispatchFailure jobAtBudget 0).1.retryCount
          = some (jobAtBudget.maxRetries + 1))
    ∧ (jobRetrying.retryCount.getD 0 + 1 ≤ jobRetrying.maxRetries
      ∧ (dispatchFailure jobRetrying 0).1.status = .PENDING
      ∧ (dispatchFailure jobRetrying 0).2 = some ⟨4000, jobRetrying.id⟩) := by
  have ha := c3_retry_accounting jobAtBudget 0
  have hr := c3_retry_accounting jobRetrying 0
  refine ⟨⟨by decide, (ha.2.2.1 (by decide)).1,
          ha.2.2.2 (by decide) ((ha.2.2.1 (by decide)).1)⟩,
        ⟨by decide, (hr.2.1 (by decide)).1, ?_⟩⟩
  have := (hr.2.1 (by decide)).2
  rw [this]
  decide

/-- Helper: a list with no last element is empty. -/
theorem getLast?_none_nil (l : List Nat) (h : l.getLast? = none) : l = [] := by
  rcases l.eq_nil_or_concat with he | ⟨L, b, he⟩
  · exact he
  · rw [he] at h
    simp at h

/-- C5: the claim says running the Recovery Coordinator twice with no
intervening activity re-enqueues the same terminal set of job identifiers
as one run, for every starting store state.  On `storeDangling` it fails:
run 1's scan 3 resets the dangling PCB to READY and then throws reading
the missing job's priority, and the single outer catch aborts the rest of
the scan, so run 1 pushes nothing and leaves `pcbSusp` SUSPENDED; run 2
then reaches `pcbSusp` and pushes job 1 onto lane 3 — an identifier run 1
never pushed — so the two runs' cumulative pushed-id set differs from one
run's, against the spec's own per-record-error requirement (log and
continue) whose absence causes the failure. -/
theorem c5_recovery_not_idempotent :
    (recoverJobs storeDangling).2 = []
    ∧ (recoverJobs storeDangling).1.pcbs.map PCBM.status
        = [.READY, .SUSPENDED]
    ∧ (recoverJobs (recoverJobs storeDangling).1).2
        = [(3, jobSusp.id)]
    ∧ ((((recoverJobs (recoverJobs storeDangling).1).2
          ++ (recoverJobs storeDangling).2).map Prod.snd).toFinset
        ≠ ((recoverJobs storeDangling).2.map Prod.snd).toFinset) := by
  decide

/-- Helper: pushing with `lPushL` via a fold reverses onto the
accumulator. -/
theorem foldl_lPushL (xs acc : List Nat) :
    xs.foldl (fun l x => lPushL x l) acc = xs.reverse ++ acc := by
  induction xs generalizing acc with
  | nil => simp
  | cons x xs ih => simp [lPushL, ih]

/-- Helper: draining with enough fuel pops the whole lane in reverse
order of its internal representation. -/
theorem drainAux_eq (n : Nat) :
    ∀ l : List Nat, l.length ≤ n → drainAux n l = l.reverse := by
  induction n with
  | zero =>
    intro l h
    have hl : l = [] := List.length_eq_zero.mp (Nat.le_zero.mp h)
    subst hl
    rfl
  | succ n ih =>
    intro l h
    rcases l.eq_nil_or_concat with rfl | ⟨L, b, rfl⟩
    · rfl
    · simp only [drainAux, rPopL, List.concat_eq_append, List.getLast?_concat,
        List.dropLast_concat]
      rw [ih L (by simp at h; omega)]
      simp

/-- Helper: pushing a batch of ids into an empty lane and then popping
until empty yields the ids in their original order (FIFO). -/
theorem drain_fifo (xs : List Nat) : drain (pushAll xs) = xs := by
  have h1 : pushAll xs = xs.reverse := by simpa using foldl_lPushL xs []
  rw [drain, h1, drainAux_eq _ _ (le_refl _), List.reverse_reverse]

/-- Helper: unfolding `popScan` when the probed lane is empty. -/
theorem popScan_succ_none (n : Nat) (lanes : Lanes)
    (hc : (lanes (n + 1)).getLast? = none) :
    popScan (n + 1) lanes = popScan n lanes := by
  simp [popScan, rPopL, hc]

/-- Helper: unfolding `popScan` when the probed lane has a last element. -/
theorem popScan_succ_some (n : Nat) (lanes : Lanes) (id0 : Nat)
    (hc : (lanes (n + 1)).getLast? = some id0) :
    popScan (n + 1) lanes =
      (some (n + 1, id0),
        fun q => if q = n + 1 then (lanes q).dropLast else lanes q) := by
  simp [popScan, rPopL, hc]

/-- Helper: the dispatch scan returns nothing iff every lane in range is
empty. -/
theorem popScan_none_iff (n : Nat) (lanes : Lanes) :
    (popScan n lanes).1 = none ↔ ∀ p, 1 ≤ p → p ≤ n → lanes p = [] := by
  induction n with
  | zero =>
    simp only [popScan]
    constructor
    · intro _ p h1 h2
      omega
    · intro _
      trivial
  | succ n ih =>
    cases hc : (lanes (n + 1)).getLast? with
    | some id0 =>
      rw [popScan_succ_some n lanes id0 hc]
      constructor
      · intro h
        simp at h
      · intro hall
        have := hall (n + 1) (by omega) (le_refl _)
        rw [this] at hc
        simp at hc
    | none =>
      have hnil : lanes (n + 1) = [] := getLast?_none_nil _ hc
      rw [popScan_succ_none n lanes hc, ih]
      constructor
      · intro hp p h1 h2
        rcases Nat.lt_or_ge p (n + 1) with hlt | hge
        · exact hp p h1 (by omega)
        · have hpe : p = n + 1 := by omega
          rw [hpe]
          exact hnil
      · intro hp p h1 h2
        exact hp p h1 (by omega)

/-- Helper: when the dispatch scan returns a hit, it comes from the
highest non-empty lane in range, takes that lane's oldest entry, and
removes exactly that entry. -/
theorem popScan_some_spec (n : Nat) (lanes : Lanes) (p id : Nat)
    (h : (popScan n lanes).1 = some (p, id)) :
    1 ≤ p ∧ p ≤ n ∧ (∀ q, p < q → q ≤ n → lanes q = [])
    ∧ (lanes p).getLast? = some id
    ∧ (popScan n lanes).2 p = (lanes p).dropLast
    ∧ ∀ q, q ≠ p → (popScan n lanes).2 q = lanes q := by
  induction n with
  | zero => simp [popScan] at h
  | succ n ih =>
    cases hc : (lanes (n + 1)).getLast? with
    | some id0 =>
      rw [popScan_succ_some n lanes id0 hc] at h ⊢
      simp only [Option.some.injEq, Prod.mk.injEq] at h
      obtain ⟨hpe, hide⟩ := h
      subst hpe
      subst hide
      refine ⟨by omega, le_refl _, fun q h1 h2 => by omega, hc, ?_, ?_⟩
      · simp
      · intro q hq
        simp [hq]
    | none =>
      have hnil : lanes (n + 1) = [] := getLast?_none_nil _ hc
      rw [popScan_succ_none n lanes hc] at h ⊢
      obtain ⟨h1, h2, h3, h4, h5, h6⟩ := ih h
      refine ⟨h1, by omega, fun q hq1 hq2 => ?_, h4, h5, h6⟩
      rcases Nat.lt_or_ge q (n + 1) with hlt | hge
      · exact h3 q hq1 (by omega)
      · have hqe : q = n + 1 := by omega
        rw [hqe]
        exact hnil

/-- C6: a dispatch iteration pops one id from the highest-numbered
non-empty lane among 10 down to 1 — empty only when all lanes are empty —
taking exactly the oldest entry of that lane (the last of the Redis list,
since producers `lPush` at the head), and a lane pushed with a batch of
ids pops them back in the order they were enqueued (FIFO). -/
theorem c6_pop_highest_fifo :
    (∀ lanes : Lanes,
      ((popHighest lanes).1 = none ↔ ∀ p, 1 ≤ p → p ≤ 10 → lanes p = []))
    ∧ (∀ lanes : Lanes, ∀ p id, (popHighest lanes).1 = some (p, id) →
        1 ≤ p ∧ p ≤ 10 ∧ lanes p ≠ []
        ∧ (∀ q, p < q → q ≤ 10 → lanes q = [])
        ∧ (lanes p).getLast? = some id
        ∧ (popHighest lanes).2 p = (lanes p).dropLast
        ∧ ∀ q, q ≠ p → (popHighest lanes).2 q = lanes q)
    ∧ (∀ xs : List Nat, drain (pushAll xs) = xs) := by
  refine ⟨fun lanes => popScan_none_iff 10 lanes,
    fun lanes p id h => ?_, drain_fifo⟩
  obtain ⟨h1, h2, h3, h4, h5, h6⟩ := popScan_some_spec 10 lanes p id h
  refine ⟨h1, h2, fun hnil => ?_, h3, h4, h5, h6⟩
  rw [hnil] at h4
  simp at h4

/-- Witness for C6 at a queue whose only waiting id 7 sits in lane 9, and
the batch push 3, 1, 2. -/
theorem c6_pop_highest_fifo_witness :
    (lanesW 9).getLast? = some 7
    ∧ (popHighest lanesW).2 9 = (lanesW 9).dropLast
    ∧ drain (pushAll [3, 1, 2]) = [3, 1, 2] := by
  have h := c6_pop_highest_fifo
  have hs := h.2.1 lanesW 9 7 (by decide)
  exact ⟨hs.2.2.2.2.1, hs.2.2.2.2.2.1, h.2.2 [3, 1, 2]⟩

/-- Helper: the length probe of `checkPreemption` answers 0 iff every
lane in range is empty. -/
theorem probeHighest_eq_zero_iff (n : Nat) (lanes : Lanes) :
    probeHighest n lanes = 0 ↔ ∀ p, 1 ≤ p → p ≤ n → lanes p = [] := by
  induction n with
  | zero =>
    simp only [probeHighest]
    constructor
    · intro _ p h1 h2
      omega
    · intro _
      trivial
  | succ n ih =>
    simp only [probeHighest]
    by_cases hc : lanes (n + 1) = []
    · rw [if_pos hc, ih]
      constructor
      · intro hp p h1 h2
        rcases Nat.lt_or_ge p (n + 1) with hlt | hge
        · exact hp p h1 (by omega)
        · have hpe : p = n + 1 := by omega
          rw [hpe]
          exact hc
      · intro hp p h1 h2
        exact hp p h1 (by omega)
    · rw [if_neg hc]
      constructor
      · intro h0
        omega
      · intro hall
        exact absurd (hall (n + 1) (by omega) (le_refl _)) hc

/-- Helper: a non-zero probe answer is the highest non-empty lane in
range. -/
theorem probeHighest_spec (n : Nat) (lanes : Lanes)
    (h : probeHighest n lanes ≠ 0) :
    1 ≤ probeHighest n lanes ∧ probeHighest n lanes ≤ n
    ∧ lanes (probeHighest n lanes) ≠ []
    ∧ ∀ q, probeHighest n lanes < q → q ≤ n → lanes q = [] := by
  induction n with
  | zero => simp [probeHighest] at h
  | succ n ih =>
    simp only [probeHighest] at h ⊢
    by_cases hc : lanes (n + 1) = []
    · rw [if_pos hc] at h ⊢
      obtain ⟨h1, h2, h3, h4⟩ := ih h
      refine ⟨h1, by omega, h3, fun q hq1 hq2 => ?_⟩
      rcases Nat.lt_or_ge q (n + 1) with hlt | hge
      · exact h4 q hq1 (by omega)
      · have hqe : q = n + 1 := by omega
        rw [hqe]
        exact hc
    · rw [if_neg hc] at h ⊢
      exact ⟨by omega, le_refl _, hc, fun q hq1 hq2 => by omega⟩

/-- C7: `checkPreemption` answers true iff the highest non-empty waiting
lane (probed 10 down to 1, stopping at the first non-empty one) strictly
exceeds the running job's effective priority
`min (storedPriority + ageSeconds) 10`, with `ageSeconds` the whole
seconds since the job's creation. -/
theorem c7_check_preemption_iff (lanes : Lanes) (job : JobM) (now : Int)
    (p : Nat) (hp : job.priority = some p) (hp1 : 1 ≤ p)
    (hnow : job.createdAt ≤ now) :
    checkPreemption lanes job now = true ↔
      ∃ q, IsHighestNonEmptyLane lanes q
        ∧ min ((p : Int) + Int.fdiv (now - job.createdAt) 1000) 10 < q := by
  have hjs : jsOr job.priority 5 = p := by
    rw [hp]
    cases p with
    | zero => omega
    | succ k => rfl
  have hage : (0 : Int) ≤ Int.fdiv (now - job.createdAt) 1000 :=
    Int.fdiv_nonneg (by omega) (by norm_num)
  have heff : getEffectivePriority job now
      = min ((p : Int) + Int.fdiv (now - job.createdAt) 1000) 10 := by
    rw [getEffectivePriority, getJobAge, hjs]
  have hE1 : (1 : Int) ≤ min ((p : Int) + Int.fdiv (now - job.createdAt) 1000) 10 := by
    apply le_min
    · have hpi : (1 : Int) ≤ (p : Int) := by exact_mod_cast hp1
      linarith
    · norm_num
  have hdec : checkPreemption lanes job now = true ↔
      getEffectivePriority job now < (highestWaitingPriority lanes : Int) := by
    simp [checkPreemption]
  rw [hdec, heff]
  constructor
  · intro hlt
    have hpos : highestWaitingPriority lanes ≠ 0 := by
      intro h0
      rw [highestWaitingPriority] at h0
      rw [highestWaitingPriority, h0] at hlt
      push_cast at hlt
      linarith
    obtain ⟨h1, h2, h3, h4⟩ := probeHighest_spec 10 lanes
      (by rwa [highestWaitingPriority] at hpos)
    exact ⟨highestWaitingPriority lanes, ⟨h1, h2, h3, h4⟩, hlt⟩
  · rintro ⟨q, ⟨hq1, hq2, hq3, hq4⟩, hlt⟩
    have hpos : probeHighest 10 lanes ≠ 0 := by
      intro h0
      exact hq3 ((probeHighest_eq_zero_iff 10 lanes).mp h0 q hq1 hq2)
    obtain ⟨h1, h2, h3, h4⟩ := probeHighest_spec 10 lanes hpos
    have hqe : q = highestWaitingPriority lanes := by
      rw [highestWaitingPriority]
      rcases Nat.lt_trichotomy q (probeHighest 10 lanes) with hlt2 | he | hgt
      · exact absurd (hq4 _ hlt2 h2) h3
      · exact he
      · exact absurd (h4 q hgt hq2) hq3
    rw [hqe] at hlt
    exact hlt

/-- Witness for C7: `jobA` (priority 3, age 0) against a queue whose only
waiting job sits in lane 9 is preempted. -/
theorem c7_check_preemption_iff_witness :
    checkPreemption lanesW jobA 0 = true := by
  have h := c7_check_preemption_iff lanesW jobA 0 3 rfl (by decide) (by decide)
  apply h.mpr
  refine ⟨9, ⟨by decide, by decide, by decide, ?_⟩, by decide⟩
  intro r h1 h2
  have hre : r = 10 := by omega
  rw [hre]
  rfl

end Sched
